import Mathlib

/-!
# go-xruntime: zero-copy string/slice header conversions

A shallow embedding of `runtime.go` (package `xruntime`) and of the wrapper
methods of `runtime_test.go`.

Modelling conventions

* Target: a 64-bit platform. A machine word (`uintptr`, `int`, a pointer) is a
  natural number; `uintptr` arithmetic is reduced modulo `2 ^ 64`.
* Memory (`Mem`) gives the machine word stored at every byte address; every
  access is word-sized and word-aligned. `Mem.load` is total and gives the
  value a load returns; the source has no bounds or nil checks.
* Faults are modelled separately (`AddrSpace`): a memory together with its
  set of readable addresses, where a load from an unreadable address (nil, an
  unmapped page) yields `none`. The `...Exec` definitions run the conversions
  there; when no load faults they return the value of the total definition.
* The `int` fields `Len` and `Cap` are kept as the machine words that hold
  them: equality of two lengths, and comparison of a length with 0, are those
  of the words.
* A Go `string` value is its two-word header (`reflect.StringHeader`), a Go
  `[]byte` value is its three-word header (`reflect.SliceHeader`).
* `*(*T)(unsafe.Pointer(p))` is modelled by decoding, with the layout of `T`,
  the consecutive words found at `p`: words of memory when `p` is a pointer the
  function received, words of the image of the local when `p` is the address
  of a local variable.
-/

namespace XRuntime

/-! ## Machine words and memory -/

/-- Number of bits of a machine word. -/
def wordBits : Nat := 64

/-- Size in bytes of a machine word (`unsafe.Sizeof(uintptr(0))`). -/
def ptrSize : Nat := 8

/-- Conversion to `uintptr`: the value reduced to one machine word. -/
def uintptr (x : Nat) : Nat := x % 2 ^ wordBits

/-- Memory: the machine word stored at each byte address. -/
structure Mem where
  word : Nat → Nat

/-- Read the machine word stored at address `a`. -/
def Mem.load (m : Mem) (a : Nat) : Nat := m.word a

/-- Write the machine word `w` at address `a`. -/
def Mem.store (m : Mem) (a w : Nat) : Mem :=
  ⟨fun x => if x = a then w else m.word x⟩

/-- Read `n` consecutive machine words starting at address `a`. -/
def Mem.loadWords (m : Mem) (a n : Nat) : List Nat :=
  (List.range n).map (fun i => m.load (a + i * ptrSize))

/-- Write the machine words `ws` consecutively starting at address `a`. -/
def Mem.storeWords (m : Mem) (a : Nat) : List Nat → Mem
  | [] => m
  | w :: ws => (m.store a w).storeWords (a + ptrSize) ws

/-! ## Header model -/

/-- Runtime representation of a string (`reflect.StringHeader`):
`Data uintptr; Len int`. -/
structure StringHeader where
  Data : Nat
  Len : Nat
  deriving DecidableEq, Repr

/-- Runtime representation of a slice (`reflect.SliceHeader`):
`Data uintptr; Len int; Cap int`. -/
structure SliceHeader where
  Data : Nat
  Len : Nat
  Cap : Nat
  deriving DecidableEq, Repr

/-- Memory image of a string header: pointer first, then length. -/
def StringHeader.toWords (s : StringHeader) : List Nat := [s.Data, s.Len]

/-- Memory image of a slice header: pointer, length, capacity. -/
def SliceHeader.toWords (b : SliceHeader) : List Nat := [b.Data, b.Len, b.Cap]

/-- Decode a string header from consecutive machine words. -/
def StringHeader.ofWords (ws : List Nat) : StringHeader :=
  { Data := ws.getD 0 0, Len := ws.getD 1 0 }

/-- Decode a slice header from consecutive machine words. -/
def SliceHeader.ofWords (ws : List Nat) : SliceHeader :=
  { Data := ws.getD 0 0, Len := ws.getD 1 0, Cap := ws.getD 2 0 }

/-- The string stored at address `sp`, that is `*sp` for `sp *string`. -/
def Mem.derefString (m : Mem) (sp : Nat) : StringHeader :=
  StringHeader.ofWords (m.loadWords sp 2)

/-- The slice read at address `p`, that is `*(*[]byte)(p)`. -/
def Mem.derefSlice (m : Mem) (p : Nat) : SliceHeader :=
  SliceHeader.ofWords (m.loadWords p 3)

/-- Place the string variable `s` at address `sp`. -/
def Mem.storeString (m : Mem) (sp : Nat) (s : StringHeader) : Mem :=
  m.storeWords sp s.toWords

/-- Go builtin `len` on a string. -/
def StringHeader.len (s : StringHeader) : Nat := s.Len

/-- Go builtin `len` on a slice. -/
def SliceHeader.len (b : SliceHeader) : Nat := b.Len

/-- Go builtin `cap` on a slice. -/
def SliceHeader.cap (b : SliceHeader) : Nat := b.Cap

/-! ## runtime.go -/

/-- Source: `AssignString2SliceUnsafe(sp *string) (b []byte)`:
`b = *(*[]byte)(unsafe.Pointer(sp))`, then
`(*reflect.SliceHeader)(unsafe.Pointer(&b)).Cap = len(*sp)`, then `return b`. -/
def AssignString2SliceUnsafe (m : Mem) (sp : Nat) : SliceHeader :=
  let b := m.derefSlice sp
  let b := { b with Cap := (m.derefString sp).len }
  b

/-- Source: `AssignString2SliceUnsafeRough(sp *string) []byte`:
`return *(*[]byte)(unsafe.Pointer(sp))`. -/
def AssignString2SliceUnsafeRough (m : Mem) (sp : Nat) : SliceHeader :=
  m.derefSlice sp

/-- Source: `AssignSlice2StringUnsafe(b []byte) (s string)`:
`return *(*string)(unsafe.Pointer(&b))`; `b` is the by-value parameter. -/
def AssignSlice2StringUnsafe (b : SliceHeader) : StringHeader :=
  StringHeader.ofWords b.toWords

/-- Source: `GetStringHeader(sp *string) *reflect.StringHeader`:
`return (*reflect.StringHeader)(unsafe.Pointer(sp))`; a pointer cast, the
address is unchanged. -/
def GetStringHeader (sp : Nat) : Nat := sp

/-- Source: `GetStringDataPointer(sp *string) uintptr`:
`return (*reflect.StringHeader)(unsafe.Pointer(sp)).Data`. -/
def GetStringDataPointer (m : Mem) (sp : Nat) : Nat :=
  (m.derefString sp).Data

/-- Source: `NoEscape(p unsafe.Pointer) unsafe.Pointer`:
`x := uintptr(p); return unsafe.Pointer(x ^ 0)`. -/
def NoEscape (p : Nat) : Nat :=
  let x := uintptr p
  uintptr (x ^^^ 0)

/-! ## runtime_test.go -/

/-- A string literal whose bytes are placed at address `d`: the length is the
number of bytes of its UTF-8 encoding. -/
def stringLit (d : Nat) (lit : String) : StringHeader :=
  { Data := d, Len := lit.utf8ByteSize }

/-- The conversion `[]byte(lit)`: a fresh backing array at address `d` holding
the bytes of `lit`, with `extra` spare bytes of capacity. -/
def bytesLit (d extra : Nat) (lit : String) : SliceHeader :=
  { Data := d, Len := lit.utf8ByteSize, Cap := lit.utf8ByteSize + extra }

/-- Source: `(*fakeInterfaceReceiver).string2slice(s string) []byte`:
`return AssignString2SliceUnsafe(&s)`. The parameter `s` has its address
taken; `fp` is the address of its slot in the frame. -/
def string2slice (m : Mem) (fp : Nat) (s : StringHeader) : SliceHeader :=
  AssignString2SliceUnsafe (m.storeString fp s) fp

/-- Source: `(*fakeInterfaceReceiver).string2sliceRough(s string) []byte`:
`return AssignString2SliceUnsafeRough(&s)`. -/
def string2sliceRough (m : Mem) (fp : Nat) (s : StringHeader) : SliceHeader :=
  AssignString2SliceUnsafeRough (m.storeString fp s) fp

/-- Source: `(*fakeInterfaceReceiver).slice2string(b []byte) string`:
`return AssignSlice2StringUnsafe(b)`. -/
def slice2string (b : SliceHeader) : StringHeader :=
  AssignSlice2StringUnsafe b

/-- Source: `s := "this is test string"` in `TestAssignString2SliceUnsafe`. -/
def testString : String := "this is test string"

/-- Source: `s := "this is test string inline"` in
`TestAssignString2SliceUnsafeRough`. -/
def testStringRough : String := "this is test string inline"

/-- Source: `b := []byte("this is test byte raw string")` in
`TestAssignSlice2StringUnsafe`. -/
def testBytes : String := "this is test byte raw string"

/-- A memory holding zero everywhere. -/
def zeroMem : Mem := ⟨fun _ => 0⟩

/-- A memory holding the two-element array `[2]string` at address `4096`:
element 0 is 3 bytes at `8192`, element 1 is 5 bytes at `8200`. -/
def arrayMem : Mem :=
  (zeroMem.storeString 4096 ⟨8192, 3⟩).storeString (4096 + 2 * ptrSize) ⟨8200, 5⟩

/-- A memory holding the string variable `"this is test string"` at address
`4096`, its bytes at address `8192`. -/
def testMem : Mem := zeroMem.storeString 4096 (stringLit 8192 testString)

/-! ## Execution with memory faults -/

/-- An address space: the memory words together with the set of addresses a
load may touch. A load from any other address (the nil page, an unmapped
page) faults. -/
structure AddrSpace where
  mem : Mem
  readable : Nat → Bool

/-- Addresses of `n` consecutive machine words starting at `a`. -/
def wordAddrs (a n : Nat) : List Nat :=
  (List.range n).map (fun i => a + i * ptrSize)

/-- Whether the `n` consecutive machine words starting at `a` are readable. -/
def AddrSpace.readableWords (v : AddrSpace) (a n : Nat) : Bool :=
  (wordAddrs a n).all v.readable

/-- Load of the machine word at address `a`; `none` is a fault. -/
def AddrSpace.read (v : AddrSpace) (a : Nat) : Option Nat :=
  if v.readable a then some (v.mem.load a) else none

/-- Load of the machine words at the addresses listed, in order; faults as
soon as one of the loads does. -/
def AddrSpace.readAll (v : AddrSpace) : List Nat → Option (List Nat)
  | [] => some []
  | a :: as => do
    let w ← v.read a
    let ws ← v.readAll as
    pure (w :: ws)

/-- Load of `n` consecutive machine words starting at `a`. -/
def AddrSpace.readWords (v : AddrSpace) (a n : Nat) : Option (List Nat) :=
  v.readAll (wordAddrs a n)

/-- The load `*sp` for `sp *string`. -/
def AddrSpace.readString (v : AddrSpace) (sp : Nat) : Option StringHeader :=
  (v.readWords sp 2).map StringHeader.ofWords

/-- The load `*(*[]byte)(p)`. -/
def AddrSpace.readSlice (v : AddrSpace) (p : Nat) : Option SliceHeader :=
  (v.readWords p 3).map SliceHeader.ofWords

/-- Source: `AssignString2SliceUnsafe`, executed in an address space: the two
loads through `sp` may fault, nothing else accesses memory. -/
def AssignString2SliceUnsafeExec (v : AddrSpace) (sp : Nat) : Option SliceHeader := do
  let b ← v.readSlice sp
  let s ← v.readString sp
  let b := { b with Cap := s.len }
  pure b

/-- Source: `AssignString2SliceUnsafeRough`, executed in an address space. -/
def AssignString2SliceUnsafeRoughExec (v : AddrSpace) (sp : Nat) : Option SliceHeader :=
  v.readSlice sp

theorem Mem.derefString_eq (m : Mem) (sp : Nat) :
    m.derefString sp = ⟨m.load sp, m.load (sp + ptrSize)⟩ := by
  simp [Mem.derefString, Mem.loadWords, StringHeader.ofWords, List.range_succ]

theorem Mem.derefSlice_eq (m : Mem) (p : Nat) :
    m.derefSlice p = ⟨m.load p, m.load (p + ptrSize), m.load (p + 2 * ptrSize)⟩ := by
  simp [Mem.derefSlice, Mem.loadWords, SliceHeader.ofWords, List.range_succ]

theorem Mem.load_store_same (m : Mem) (a w : Nat) : (m.store a w).load a = w := by
  simp [Mem.store, Mem.load]

theorem Mem.load_store_other (m : Mem) (a w x : Nat) (h : x ≠ a) :
    (m.store a w).load x = m.load x := by
  simp [Mem.store, Mem.load, h]

theorem Mem.storeString_eq (m : Mem) (sp : Nat) (s : StringHeader) :
    m.storeString sp s = (m.store sp s.Data).store (sp + ptrSize) s.Len := by
  simp [Mem.storeString, StringHeader.toWords, Mem.storeWords]

theorem Mem.load_storeString_data (m : Mem) (sp : Nat) (s : StringHeader) :
    (m.storeString sp s).load sp = s.Data := by
  rw [Mem.storeString_eq, Mem.load_store_other _ _ _ _ (by simp [ptrSize]),
    Mem.load_store_same]

theorem Mem.load_storeString_len (m : Mem) (sp : Nat) (s : StringHeader) :
    (m.storeString sp s).load (sp + ptrSize) = s.Len := by
  rw [Mem.storeString_eq, Mem.load_store_same]

theorem Mem.load_storeString_other (m : Mem) (sp : Nat) (s : StringHeader) (x : Nat)
    (h0 : x ≠ sp) (h1 : x ≠ sp + ptrSize) :
    (m.storeString sp s).load x = m.load x := by
  rw [Mem.storeString_eq, Mem.load_store_other _ _ _ _ h1, Mem.load_store_other _ _ _ _ h0]

theorem Mem.derefString_storeString (m : Mem) (sp : Nat) (s : StringHeader) :
    (m.storeString sp s).derefString sp = s := by
  rw [Mem.derefString_eq, Mem.load_storeString_data, Mem.load_storeString_len]

theorem AssignString2SliceUnsafe_eq (m : Mem) (sp : Nat) :
    AssignString2SliceUnsafe m sp
      = ⟨(m.derefString sp).Data, (m.derefString sp).Len, (m.derefString sp).Len⟩ := by
  simp [AssignString2SliceUnsafe, Mem.derefSlice_eq, Mem.derefString_eq, StringHeader.len]

theorem AssignString2SliceUnsafeRough_eq (m : Mem) (sp : Nat) :
    AssignString2SliceUnsafeRough m sp
      = ⟨(m.derefString sp).Data, (m.derefString sp).Len, m.load (sp + 2 * ptrSize)⟩ := by
  simp [AssignString2SliceUnsafeRough, Mem.derefSlice_eq, Mem.derefString_eq]

theorem AssignSlice2StringUnsafe_eq (b : SliceHeader) :
    AssignSlice2StringUnsafe b = ⟨b.Data, b.Len⟩ := by
  simp [AssignSlice2StringUnsafe, StringHeader.ofWords, SliceHeader.toWords]

theorem uintptr_of_lt (x : Nat) (h : x < 2 ^ wordBits) : uintptr x = x := by
  simp [uintptr, Nat.mod_eq_of_lt h]

/-! ## Faults -/

theorem AddrSpace.readSlice_fault (v : AddrSpace) (p : Nat)
    (h : v.readableWords p 3 = false) : v.readSlice p = none := by
  simp [AddrSpace.readableWords, wordAddrs, List.range_succ] at h
  simp only [AddrSpace.readSlice, AddrSpace.readWords, AddrSpace.readAll, wordAddrs,
    List.range_succ, AddrSpace.read]
  by_cases h0 : v.readable p = true
  · by_cases h1 : v.readable (p + ptrSize) = true
    · have h2 := h h0 h1
      simp [h0, h1, h2]
    · simp [h0, h1]
  · simp [h0]

theorem AssignString2SliceUnsafeExec_fault (v : AddrSpace) (sp : Nat)
    (h : v.readableWords sp 3 = false) : AssignString2SliceUnsafeExec v sp = none := by
  simp [AssignString2SliceUnsafeExec, AddrSpace.readSlice_fault v sp h]

theorem AssignString2SliceUnsafeRoughExec_fault (v : AddrSpace) (sp : Nat)
    (h : v.readableWords sp 3 = false) : AssignString2SliceUnsafeRoughExec v sp = none := by
  simp [AssignString2SliceUnsafeRoughExec, AddrSpace.readSlice_fault v sp h]

/-- C1: for every non-empty string `s` stored at `sp`, the slice returned by
`AssignString2SliceUnsafe(&s)` has the data pointer of `s`, length `len(s)`
and capacity `len(s)`. -/
theorem AssignString2SliceUnsafe_shares (m : Mem) (sp : Nat)
    (_h : 0 < (m.derefString sp).len) :
    (AssignString2SliceUnsafe m sp).Data = (m.derefString sp).Data ∧
    (AssignString2SliceUnsafe m sp).len = (m.derefString sp).len ∧
    (AssignString2SliceUnsafe m sp).cap = (m.derefString sp).len := by
  rw [AssignString2SliceUnsafe_eq]
  exact ⟨rfl, rfl, rfl⟩

/-- C1 at the 19-byte test string stored at address `4096`. -/
theorem AssignString2SliceUnsafe_shares_witness :
    0 < (testMem.derefString 4096).len ∧
    ((AssignString2SliceUnsafe testMem 4096).Data = (testMem.derefString 4096).Data ∧
     (AssignString2SliceUnsafe testMem 4096).len = (testMem.derefString 4096).len ∧
     (AssignString2SliceUnsafe testMem 4096).cap = (testMem.derefString 4096).len) :=
  ⟨by decide, AssignString2SliceUnsafe_shares testMem 4096 (by decide)⟩

/-- C2: for every non-empty byte slice `b` with `len(b) ≤ cap(b)`, the string
returned by `AssignSlice2StringUnsafe(b)` has the data pointer of `b` and
length `len(b)`, and replacing the capacity of `b` by any other value leaves
the result unchanged. -/
theorem AssignSlice2StringUnsafe_shares (b : SliceHeader)
    (_hne : 0 < b.len) (_hcap : b.len ≤ b.cap) :
    (AssignSlice2StringUnsafe b).Data = b.Data ∧
    (AssignSlice2StringUnsafe b).len = b.len ∧
    ∀ c : Nat, AssignSlice2StringUnsafe { b with Cap := c } = AssignSlice2StringUnsafe b := by
  refine ⟨?_, ?_, ?_⟩
  · rw [AssignSlice2StringUnsafe_eq]
  · rw [AssignSlice2StringUnsafe_eq]; rfl
  · intro c
    rw [AssignSlice2StringUnsafe_eq, AssignSlice2StringUnsafe_eq]

/-- C2 at the 28-byte test slice with 4 spare bytes of capacity. -/
theorem AssignSlice2StringUnsafe_shares_witness :
    0 < (bytesLit 8192 4 testBytes).len ∧
    (bytesLit 8192 4 testBytes).len ≤ (bytesLit 8192 4 testBytes).cap ∧
    ((AssignSlice2StringUnsafe (bytesLit 8192 4 testBytes)).Data
        = (bytesLit 8192 4 testBytes).Data ∧
     (AssignSlice2StringUnsafe (bytesLit 8192 4 testBytes)).len
        = (bytesLit 8192 4 testBytes).len ∧
     ∀ c : Nat, AssignSlice2StringUnsafe { bytesLit 8192 4 testBytes with Cap := c }
        = AssignSlice2StringUnsafe (bytesLit 8192 4 testBytes)) :=
  ⟨by decide, by decide,
    AssignSlice2StringUnsafe_shares (bytesLit 8192 4 testBytes) (by decide) (by decide)⟩

/-- C3: round trip. For any string `s` stored at `sp`, the empty one included,
`AssignSlice2StringUnsafe(AssignString2SliceUnsafe(&s))` is the header of `s`:
same data pointer and same length. -/
theorem roundtrip_string_slice_string (m : Mem) (sp : Nat) :
    AssignSlice2StringUnsafe (AssignString2SliceUnsafe m sp) = m.derefString sp ∧
    (AssignSlice2StringUnsafe (AssignString2SliceUnsafe m sp)).Data
      = (m.derefString sp).Data ∧
    (AssignSlice2StringUnsafe (AssignString2SliceUnsafe m sp)).len
      = (m.derefString sp).len := by
  have h : AssignSlice2StringUnsafe (AssignString2SliceUnsafe m sp) = m.derefString sp := by
    rw [AssignSlice2StringUnsafe_eq, AssignString2SliceUnsafe_eq]
  exact ⟨h, by rw [h], by rw [h]⟩

/-- C4: `NoEscape` is the identity on addresses. For every pointer `p` that is
a machine word, the returned address `uintptr(p) ^ 0` equals `p`. -/
theorem NoEscape_identity (p : Nat) (h : p < 2 ^ wordBits) : NoEscape p = p := by
  simp [NoEscape, uintptr_of_lt p h]

/-- C4 at the address `0xc00000e010`. -/
theorem NoEscape_identity_witness :
    (0xc00000e010 : Nat) < 2 ^ wordBits ∧ NoEscape 0xc00000e010 = 0xc00000e010 :=
  ⟨by decide, NoEscape_identity 0xc00000e010 (by decide)⟩

/-- C5: for every non-empty string `s` stored at `sp`, the slice returned by
`AssignString2SliceUnsafeRough(&s)` has the data pointer of `s` and length
`len(s)`, and this stays so whatever value `c` the capacity word (the word
following the header of `s`) holds; that word is what the capacity reads. -/
theorem AssignString2SliceUnsafeRough_shares (m : Mem) (sp : Nat)
    (_h : 0 < (m.derefString sp).len) :
    (AssignString2SliceUnsafeRough m sp).Data = (m.derefString sp).Data ∧
    (AssignString2SliceUnsafeRough m sp).len = (m.derefString sp).len ∧
    ∀ c : Nat,
      AssignString2SliceUnsafeRough (m.store (sp + 2 * ptrSize) c) sp
        = ⟨(m.derefString sp).Data, (m.derefString sp).len, c⟩ := by
  refine ⟨?_, ?_, ?_⟩
  · rw [AssignString2SliceUnsafeRough_eq]
  · rw [AssignString2SliceUnsafeRough_eq]; rfl
  · intro c
    rw [AssignString2SliceUnsafeRough_eq, Mem.load_store_same, Mem.derefString_eq,
      Mem.derefString_eq, Mem.load_store_other _ _ _ _ (by simp [ptrSize]),
      Mem.load_store_other _ _ _ _ (by simp [ptrSize])]
    rfl

/-- C5 at element 0 of the array held by `arrayMem`. -/
theorem AssignString2SliceUnsafeRough_shares_witness :
    0 < (arrayMem.derefString 4096).len ∧
    ((AssignString2SliceUnsafeRough arrayMem 4096).Data = (arrayMem.derefString 4096).Data ∧
     (AssignString2SliceUnsafeRough arrayMem 4096).len = (arrayMem.derefString 4096).len ∧
     ∀ c : Nat,
      AssignString2SliceUnsafeRough (arrayMem.store (4096 + 2 * ptrSize) c) 4096
        = ⟨(arrayMem.derefString 4096).Data, (arrayMem.derefString 4096).len, c⟩) :=
  ⟨by decide, AssignString2SliceUnsafeRough_shares arrayMem 4096 (by decide)⟩

/-- C7, as stated, fails: on element 0 of the array `[2]string` held by
`arrayMem`, `AssignString2SliceUnsafeRough` returns capacity `8200` (the data
pointer of element 1), and the wrapper `string2sliceRough` applied to the
26-byte test string returns a non-zero capacity when the frame word after its
parameter is non-zero. -/
theorem AssignString2SliceUnsafeRough_cap_nonzero :
    (AssignString2SliceUnsafeRough arrayMem 4096).cap = 8200 ∧
    (AssignString2SliceUnsafeRough arrayMem 4096).cap ≠ 0 ∧
    (stringLit 12288 testStringRough).len = 26 ∧
    (string2sliceRough arrayMem 4096 (stringLit 12288 testStringRough)).cap ≠ 0 := by
  decide

/-- C7, amended: the capacity of the slice returned by
`AssignString2SliceUnsafeRough(&s)` is the machine word stored right after the
two-word header of `s`, which the function never writes; it is 0 exactly when
that word is 0. Through the wrapper `string2sliceRough` it is the word the
frame held after the parameter slot before the call. -/
theorem AssignString2SliceUnsafeRough_cap (m : Mem) (sp : Nat) (s : StringHeader) :
    (AssignString2SliceUnsafeRough m sp).cap = m.load (sp + 2 * ptrSize) ∧
    ((AssignString2SliceUnsafeRough m sp).cap = 0 ↔ m.load (sp + 2 * ptrSize) = 0) ∧
    (string2sliceRough m sp s).cap = m.load (sp + 2 * ptrSize) := by
  have h : (AssignString2SliceUnsafeRough m sp).cap = m.load (sp + 2 * ptrSize) := by
    rw [AssignString2SliceUnsafeRough_eq]; rfl
  refine ⟨h, by rw [h], ?_⟩
  unfold string2sliceRough
  rw [AssignString2SliceUnsafeRough_eq]
  exact Mem.load_storeString_other m sp s _ (by simp [ptrSize]) (by simp [ptrSize])

/-- C8, as stated, fails: the string `"this is test string"` is not 20 bytes
long, and its conversion by `AssignString2SliceUnsafe` has neither length 20
nor capacity 20. -/
theorem testString_slice_not_20 :
    ¬ ((testMem.derefString 4096).len = 20 ∧
       (AssignString2SliceUnsafe testMem 4096).len = 20 ∧
       (AssignString2SliceUnsafe testMem 4096).cap = 20 ∧
       (AssignString2SliceUnsafe testMem 4096).Data = (testMem.derefString 4096).Data) ∧
    testMem.derefString 4096 = stringLit 8192 testString ∧
    (stringLit 8192 testString).len ≠ 20 ∧
    (AssignString2SliceUnsafe testMem 4096).len ≠ 20 ∧
    (AssignString2SliceUnsafe testMem 4096).cap ≠ 20 := by
  decide

/-- C8, amended: the string `"this is test string"` is 19 bytes long, and
converting it with `AssignString2SliceUnsafe` (directly, or through the
wrapper `string2slice`) yields a slice of length 19 and capacity 19 whose data
pointer is the data pointer `d` of the string. -/
theorem testString_slice_19 (m : Mem) (sp d : Nat)
    (h : m.derefString sp = stringLit d testString) :
    (m.derefString sp).len = 19 ∧
    AssignString2SliceUnsafe m sp = ⟨d, 19, 19⟩ ∧
    string2slice m sp (stringLit d testString) = ⟨d, 19, 19⟩ := by
  have hl : (stringLit d testString).Len = 19 := by
    show testString.utf8ByteSize = 19
    decide
  have hd : (stringLit d testString).Data = d := rfl
  refine ⟨?_, ?_, ?_⟩
  · rw [h]; exact hl
  · rw [AssignString2SliceUnsafe_eq, h, hl, hd]
  · unfold string2slice
    rw [AssignString2SliceUnsafe_eq, Mem.derefString_storeString, hl, hd]

/-- C8, amended, at the test string stored at address `4096`, bytes at `8192`. -/
theorem testString_slice_19_witness :
    testMem.derefString 4096 = stringLit 8192 testString ∧
    ((testMem.derefString 4096).len = 19 ∧
     AssignString2SliceUnsafe testMem 4096 = ⟨8192, 19, 19⟩ ∧
     string2slice testMem 4096 (stringLit 8192 testString) = ⟨8192, 19, 19⟩) :=
  ⟨by decide, testString_slice_19 testMem 4096 8192 (by decide)⟩

/-- C9, as stated, fails: the byte slice `[]byte("this is test byte raw
string")` is not 29 bytes long, and its conversion by
`AssignSlice2StringUnsafe` does not have length 29. -/
theorem testBytes_string_not_29 :
    ¬ ((bytesLit 8192 4 testBytes).len = 29 ∧
       (AssignSlice2StringUnsafe (bytesLit 8192 4 testBytes)).len = 29 ∧
       (AssignSlice2StringUnsafe (bytesLit 8192 4 testBytes)).Data
         = (bytesLit 8192 4 testBytes).Data) ∧
    (bytesLit 8192 4 testBytes).len ≠ 29 ∧
    (AssignSlice2StringUnsafe (bytesLit 8192 4 testBytes)).len ≠ 29 := by
  decide

/-- C9, amended: the byte slice `[]byte("this is test byte raw string")` is 28
bytes long, and converting it with `AssignSlice2StringUnsafe` (directly, or
through the wrapper `slice2string`) yields a string of length 28 whose data
pointer is the data pointer `d` of the slice, whatever the spare capacity. -/
theorem testBytes_string_28 (d extra : Nat) :
    (bytesLit d extra testBytes).len = 28 ∧
    AssignSlice2StringUnsafe (bytesLit d extra testBytes) = ⟨d, 28⟩ ∧
    slice2string (bytesLit d extra testBytes) = ⟨d, 28⟩ := by
  have hl : (bytesLit d extra testBytes).Len = 28 := by
    show testBytes.utf8ByteSize = 28
    decide
  have hd : (bytesLit d extra testBytes).Data = d := rfl
  refine ⟨hl, ?_, ?_⟩
  · rw [AssignSlice2StringUnsafe_eq, hl, hd]
  · unfold slice2string
    rw [AssignSlice2StringUnsafe_eq, hl, hd]

/-- C10: for every string reference `sp`, `GetStringDataPointer(sp)` equals the
`Data` field of the header that `GetStringHeader(sp)` points to, and the `Len`
field of that header equals `len(*sp)`. -/
theorem GetStringDataPointer_eq_header_data (m : Mem) (sp : Nat) :
    GetStringDataPointer m sp = (m.derefString (GetStringHeader sp)).Data ∧
    (m.derefString (GetStringHeader sp)).Len = (m.derefString sp).len := by
  exact ⟨rfl, rfl⟩

end XRuntime
